import Mathlib

/-!
Shallow embedding of the eventus event bus (src/eventus.h, header version 0.0.2,
the copy the claims reference) in Lean 4, together with theorems settling the
frozen claims about its specification.

Modelling conventions:
* `std::type_index` keys of the registry become `Int` keys; `std::unordered_map`
  becomes an association list with distinct keys (`keysNodup`).  The map's
  unspecified iteration order is the list order.
* A `subscriber` stores `id : Int` (C++ `int64_t`), `priority : Int`
  (C++ `int32_t`) and the type-erased callback storage, modelled by a type
  parameter `C`.  For claims about dispatch, `C` is instantiated with
  `E → Bool × E`: the callback receives the event by pointer, may mutate it
  (the state threading) and returns the continue/stop boolean.
* The `id_counter` is an `std::atomic<int64_t>`; `fetch_add` on it wraps
  modulo 2^64 into the signed range, which `wrap64` makes explicit.
* `std::sort` (used by `subscribe`) guarantees only that the result is a
  permutation of the input that is sorted with respect to the comparator
  `a.priority > b.priority`; the relative order of equivalent elements is
  unspecified.  The call is therefore embedded as the relation `sortSpec`
  (any permitted output), not as one particular sorting algorithm.
-/

set_option autoImplicit false

namespace Eventus

/-- The `e_status` enum of eventus.h. -/
inductive e_status : Type where
  | OK
  | EVENT_TYPE_NOT_REGISTERED
  | NO_SUBSCRIBERS_FOR_EVENT_TYPE
  | NO_SUBSCRIBER_WITH_ID
  deriving DecidableEq, Repr

export e_status (OK EVENT_TYPE_NOT_REGISTERED NO_SUBSCRIBERS_FOR_EVENT_TYPE NO_SUBSCRIBER_WITH_ID)

/-- The `subscriber` struct: id (`int64_t`), priority (`int32_t`) and the owned
type-erased callback (`callback_storage` + `invoker`), modelled by the type
parameter `C`. -/
structure subscriber (C : Type) : Type where
  id : Int
  priority : Int
  callback : C
  deriving DecidableEq

/-- `sub.invoke(&data)`: run the stored callback on the event instance; the
callback may mutate the pointed-to event and returns the continue flag. -/
def subscriber.invoke {E : Type} (s : subscriber (E → Bool × E)) (e : E) : Bool × E :=
  s.callback e

/-- The bus registry `std::unordered_map<std::type_index, std::vector<subscriber>>`,
as an association list from type keys to buckets. -/
abbrev Registry (C : Type) : Type := List (Int × List (subscriber C))

/-- `b->subs.find(key)`: first bucket stored under the key. -/
def bucketOf {C : Type} (reg : Registry C) (k : Int) : Option (List (subscriber C)) :=
  match reg with
  | [] => none
  | (k', vec) :: rest => if k' = k then some vec else bucketOf rest k

/-- `b->subs[key] = vec`: replace the bucket stored under the key, inserting the
entry at the end when the key is absent (operator[] insertion). -/
def setBucket {C : Type} (reg : Registry C) (k : Int) (vec : List (subscriber C)) : Registry C :=
  match reg with
  | [] => [(k, vec)]
  | (k', v') :: rest => if k' = k then (k, vec) :: rest else (k', v') :: setBucket rest k vec

/-- `b->subs.erase(it)` for the entry of a key. -/
def eraseKey {C : Type} (reg : Registry C) (k : Int) : Registry C :=
  match reg with
  | [] => []
  | (k', v') :: rest => if k' = k then rest else (k', v') :: eraseKey rest k

/-- `detail::gc`: drop every bucket that is now empty (one linear pass). -/
def gc {C : Type} (reg : Registry C) : Registry C :=
  reg.filter (fun kv => !kv.2.isEmpty)

/-- The `unordered_map` invariant: keys are distinct. -/
def keysNodup {C : Type} (reg : Registry C) : Prop :=
  (reg.map Prod.fst).Nodup

/-- No bucket of the registry is empty (the observable GC invariant). -/
def noEmptyBucket {C : Type} (reg : Registry C) : Prop :=
  ∀ kv ∈ reg, kv.2 ≠ []

/-- A bucket sorted with respect to the `subscribe` comparator
`a.priority > b.priority`: priorities are non-increasing. -/
def sortedDesc {C : Type} (l : List (subscriber C)) : Prop :=
  l.Pairwise (fun a b => b.priority ≤ a.priority)

instance sortedDescDecidable {C : Type} (l : List (subscriber C)) :
    Decidable (sortedDesc l) :=
  List.instDecidablePairwise l

/-- The contract of the `std::sort` call in `subscribe`: the output is a
permutation of the input, sorted by non-increasing priority.  The order of
elements with equal priorities is unspecified, so any such output is a
permitted result of the call. -/
def sortSpec {C : Type} (l l' : List (subscriber C)) : Prop :=
  l'.Perm l ∧ sortedDesc l'

instance sortSpecDecidable {C : Type} [DecidableEq C] (l l' : List (subscriber C)) :
    Decidable (sortSpec l l') :=
  instDecidableAnd

instance noEmptyBucketDecidable {C : Type} [DecidableEq C] (reg : Registry C) :
    Decidable (noEmptyBucket reg) :=
  List.decidableBAll _ reg

instance keysNodupDecidable {C : Type} [DecidableEq C] (reg : Registry C) :
    Decidable (keysNodup reg) :=
  List.nodupDecidable _

/-- One `subscribe` call as seen by the affected bucket: the new subscriber is
appended (`push_back`) and the bucket is re-sorted by `std::sort`; `bucket'` is
any output the sort call may produce. -/
def SubscribeStep {C : Type} (bucket : List (subscriber C)) (s : subscriber C)
    (bucket' : List (subscriber C)) : Prop :=
  sortSpec (bucket ++ [s]) bucket'

instance SubscribeStepDecidable {C : Type} [DecidableEq C] (bucket : List (subscriber C))
    (s : subscriber C) (bucket' : List (subscriber C)) :
    Decidable (SubscribeStep bucket s bucket') :=
  sortSpecDecidable _ _

/-- Buckets reachable from the empty bucket by a sequence of `subscribe` calls
inserting the subscribers `subs` in order. -/
inductive ReachBucket {C : Type} : List (subscriber C) → List (subscriber C) → Prop where
  | nil : ReachBucket [] []
  | step {subs bucket bucket' : List (subscriber C)} {s : subscriber C} :
      ReachBucket subs bucket → SubscribeStep bucket s bucket' →
      ReachBucket (subs ++ [s]) bucket'

/-- Wrap an integer into the `int64_t` range, the semantics of
`std::atomic<int64_t>::fetch_add` arithmetic (two's-complement wraparound). -/
def wrap64 (n : Int) : Int :=
  (n + 2 ^ 63) % 2 ^ 64 - 2 ^ 63

/-- `b->id_counter.fetch_add(1)` returns the previous counter value: that value
is the id handed out by `subscribe`. -/
def fetchAddResult (counter : Int) : Int := counter

/-- The counter value after one `fetch_add(1)`, with `int64_t` wraparound. -/
def nextCounter (counter : Int) : Int := wrap64 (counter + 1)

/-- Counter value of a fresh bus (`id_counter` value-initialized to 0) after
`n` subscribe calls. -/
def counterAfter : Nat → Int
  | 0 => 0
  | n + 1 => nextCounter (counterAfter n)

/-- The id returned by the `n`-th subscribe call (0-based) on a fresh bus. -/
def idOfCall (n : Nat) : Int := fetchAddResult (counterAfter n)

/-- The registry as `subscribe` leaves it: the affected bucket replaced by a
permitted output `vec'` of the `std::sort` call, then `detail::gc`. -/
def subscribeResult {C : Type} (reg : Registry C) (k : Int)
    (vec' : List (subscriber C)) : Registry C :=
  gc (setBucket reg k vec')

/-- Remove the first element satisfying the predicate
(`std::find_if` + `vec.erase(it)`). -/
def eraseFirstP {α : Type} (p : α → Bool) : List α → List α
  | [] => []
  | x :: xs => if p x then xs else x :: eraseFirstP p xs

/-- `unsubscribe<EventT>(bus*, int64_t)` (eventus.h 0.0.2, lines 860-882):
absent bucket reports `EVENT_TYPE_NOT_REGISTERED`; a found id is erased and GC
runs; an id missing from a present bucket reports
`NO_SUBSCRIBERS_FOR_EVENT_TYPE` (the literal status the source returns there). -/
def unsubscribeTyped {C : Type} (reg : Registry C) (k : Int) (id : Int) :
    e_status × Registry C :=
  match bucketOf reg k with
  | none => (EVENT_TYPE_NOT_REGISTERED, reg)
  | some vec =>
    if vec.any (fun s => s.id == id) then
      (OK, gc (setBucket reg k (eraseFirstP (fun s => s.id == id) vec)))
    else
      (NO_SUBSCRIBERS_FOR_EVENT_TYPE, reg)

/-- The type-erased `unsubscribe(bus*, int64_t)` (lines 885-904).  Its loop
`for (auto it = b->subs.begin(); it != b->subs.end();)` never increments `it`:
the call returns only when the registry is empty (`NO_SUBSCRIBER_WITH_ID`) or
when the first bucket contains the id (`remove_if` erase + GC, `OK`); in every
other case the C++ loop re-examines the same bucket forever, which `none`
records. -/
def unsubscribeErased {C : Type} (reg : Registry C) (id : Int) :
    Option (e_status × Registry C) :=
  match reg with
  | [] => some (NO_SUBSCRIBER_WITH_ID, [])
  | (k, vec) :: rest =>
    let vec' := vec.filter (fun s => !(s.id == id))
    if vec'.length = vec.length then
      none
    else
      some (OK, gc ((k, vec') :: rest))

/-- `unsubscribe_event<EventT>(bus*)` (lines 907-921): drop the whole bucket,
then GC. -/
def unsubscribeEvent {C : Type} (reg : Registry C) (k : Int) : e_status × Registry C :=
  match bucketOf reg k with
  | none => (EVENT_TYPE_NOT_REGISTERED, reg)
  | some _ => (OK, gc (eraseKey reg k))

/-- `unsubscribe_all(bus*)` (lines 924-928). -/
def unsubscribeAll {C : Type} (_reg : Registry C) : e_status × Registry C :=
  (OK, [])

/-- The subscriber loop of `publish` (lines 945-949): invoke each subscriber in
bucket order on the shared event instance, stopping after the first `false`.
Returns the subscribers that were invoked, the final event value, and whether
the loop hit a `break`. -/
def runSubs {E : Type} :
    List (subscriber (E → Bool × E)) → E →
    List (subscriber (E → Bool × E)) × E × Bool
  | [], e => ([], e, false)
  | s :: rest, e =>
    let r := s.invoke e
    if r.1 then
      let q := runSubs rest r.2
      (s :: q.1, q.2.1, q.2.2)
    else
      ([s], r.2, true)

/-- `publish<EventT>(bus*, EventT)` (lines 931-952): status, ids of the invoked
subscribers, and the final event value. -/
def publishRun {E : Type} (reg : Registry (E → Bool × E)) (k : Int) (e : E) :
    e_status × List Int × E :=
  match bucketOf reg k with
  | none => (EVENT_TYPE_NOT_REGISTERED, [], e)
  | some [] => (NO_SUBSCRIBERS_FOR_EVENT_TYPE, [], e)
  | some (s :: rest) =>
    let r := runSubs (s :: rest) e
    (OK, r.1.map subscriber.id, r.2.1)

/-- `publish_multi` (lines 955-960): fold the publishes left to right starting
from `OK`; only the last status survives. -/
def publishMulti {E : Type} (reg : Registry (E → Bool × E)) (events : List (Int × E)) :
    e_status :=
  events.foldl (fun _ te => (publishRun reg te.1 te.2).1) OK

/-- The concatenated invocation ids of the successive `publish` calls performed
by `publish_multi`, in call order (`publish` does not mutate the registry). -/
def publishMultiInvoked {E : Type} (reg : Registry (E → Bool × E))
    (events : List (Int × E)) : List Int :=
  events.flatMap (fun te => (publishRun reg te.1 te.2).2.1)

/-- `publish_threaded` (lines 964-968): enqueue one task performing the full
synchronous publish later and return `OK` immediately; the registry is not
examined. A queued task is its deferred `(type, event)` payload. -/
def publishThreaded {E : Type} (_reg : Registry (E → Bool × E))
    (queue : List (Int × E)) (k : Int) (e : E) : e_status × List (Int × E) :=
  (OK, queue ++ [(k, e)])

/-- `publish_async` (lines 980-1002): the same two lookup-miss statuses as
`publish`; otherwise one task per subscriber is enqueued and `OK` returned.
The enqueued tasks are returned as the list of subscribers they will invoke. -/
def publishAsync {E : Type} (reg : Registry (E → Bool × E)) (k : Int) (_e : E) :
    e_status × List (subscriber (E → Bool × E)) :=
  match bucketOf reg k with
  | none => (EVENT_TYPE_NOT_REGISTERED, [])
  | some [] => (NO_SUBSCRIBERS_FOR_EVENT_TYPE, [])
  | some (s :: rest) => (OK, s :: rest)

/-- Modelled from the spec: the `OwnedSubscription` ownership handle (`owned_id`
in the examples) is absent from src/eventus.h; only its callers in
examples/08_lifetimes.cpp appear in the repository.  Per the spec it owns
`(bus, id, type)` with an armed flag: `unsubscribe` fires the unsubscribe when
still armed and disarms (a second call is a no-op, never an error); `release`
disarms without firing and returns the raw id; the handle is move-only and a
move transfers the armed bit to the destination handle; on destruction, if
still armed, it fires exactly once.  A lifetime is the sequence of operations
on whichever handle currently owns the subscription, ended by destruction. -/
inductive ownedOp : Type where
  | unsubscribeEarly
  | releaseHandle
  | moveHandle
  deriving DecidableEq

/-- Modelled from the spec: one operation on the owning handle, giving the new
armed state and the number of unsubscribes the operation fires. -/
def ownedStep (armed : Bool) : ownedOp → Bool × Nat
  | .unsubscribeEarly => (false, if armed then 1 else 0)
  | .releaseHandle => (false, 0)
  | .moveHandle => (armed, 0)

/-- Modelled from the spec: the total number of unsubscribes fired across a
whole lifetime: the listed operations, then destruction of the final owning
handle (which fires exactly when the handle is still armed). -/
def ownedFires (armed : Bool) : List ownedOp → Nat
  | [] => if armed then 1 else 0
  | op :: ops => (ownedStep armed op).2 + ownedFires (ownedStep armed op).1 ops

/-! ## Helper lemmas -/

/-- The publish loop always invokes the first subscriber of a non-empty bucket. -/
theorem runSubs_fst_ne_nil {E : Type} (s : subscriber (E → Bool × E))
    (rest : List (subscriber (E → Bool × E))) (e : E) :
    (runSubs (s :: rest) e).1 ≠ [] := by
  simp only [runSubs]
  split <;> simp

/-- The publish loop invokes an initial segment of the bucket. -/
theorem runSubs_eq_take {E : Type} (l : List (subscriber (E → Bool × E))) (e : E) :
    ∃ n, (runSubs l e).1 = l.take n := by
  induction l generalizing e with
  | nil => exact ⟨0, rfl⟩
  | cons s rest ih =>
    simp only [runSubs]
    by_cases h : (s.invoke e).1
    · obtain ⟨n, hn⟩ := ih (s.invoke e).2
      exact ⟨n + 1, by simp [h, hn]⟩
    · exact ⟨1, by simp [h]⟩

/-- When the publish loop hits a `break`, the bucket splits into the
subscribers invoked before the stopper, the stopper itself (also invoked, and
the one whose callback returned false), and the rest, which is never reached. -/
theorem runSubs_stopped {E : Type} (l : List (subscriber (E → Bool × E))) (e : E)
    (h : (runSubs l e).2.2 = true) :
    ∃ pre stopper rest, l = pre ++ stopper :: rest ∧
      (runSubs l e).1 = pre ++ [stopper] := by
  induction l generalizing e with
  | nil => simp [runSubs] at h
  | cons s tail ih =>
    by_cases hc : (s.invoke e).1
    · have h' : (runSubs tail (s.invoke e).2).2.2 = true := by
        simpa [runSubs, hc] using h
      obtain ⟨pre, stopper, rest, h1, h2⟩ := ih (s.invoke e).2 h'
      refine ⟨s :: pre, stopper, rest, by simp [h1], ?_⟩
      simp [runSubs, hc, h2]
    · exact ⟨[], s, tail, rfl, by simp [runSubs, hc]⟩

/-- When ids are distinct, erasing the first subscriber with a given id
removes exactly the subscribers with that id, keeping all others in place. -/
theorem eraseFirstP_eq_filter {C : Type} (i : Int) (vec : List (subscriber C))
    (hids : (vec.map subscriber.id).Nodup) :
    eraseFirstP (fun s => s.id == i) vec = vec.filter (fun s => !(s.id == i)) := by
  induction vec with
  | nil => rfl
  | cons x xs ih =>
    rw [List.map_cons, List.nodup_cons] at hids
    by_cases hx : x.id = i
    · have hxs : xs.filter (fun s => !(s.id == i)) = xs := by
        apply List.filter_eq_self.mpr
        intro s hs
        have : s.id ≠ i := by
          intro hsi
          exact hids.1 (by
            rw [List.mem_map]
            exact ⟨s, hs, by rw [hsi, hx]⟩)
        simpa using this
      simp [eraseFirstP, hx, hxs]
    · simp [eraseFirstP, hx, ih hids.2]

/-- An armed handle fires at most once, a disarmed one never. -/
theorem ownedFires_le (ops : List ownedOp) (armed : Bool) :
    ownedFires armed ops ≤ if armed then 1 else 0 := by
  induction ops generalizing armed with
  | nil => simp [ownedFires]
  | cons op ops ih =>
    have hf := ih false
    have ha := ih armed
    cases op <;> simp only [ownedFires, ownedStep] at * <;>
      cases armed <;> simp_all

/-- GC on the empty registry. -/
theorem gc_nil {C : Type} : gc ([] : Registry C) = [] := rfl

/-- GC drops an empty head bucket. -/
theorem gc_cons_nil {C : Type} (k : Int) (rest : Registry C) :
    gc ((k, []) :: rest) = gc rest := by
  simp [gc]

/-- GC keeps a non-empty head bucket. -/
theorem gc_cons_ne {C : Type} (k : Int) (v : List (subscriber C)) (rest : Registry C)
    (hv : v ≠ []) : gc ((k, v) :: rest) = (k, v) :: gc rest := by
  obtain ⟨x, xs, rfl⟩ := List.exists_cons_of_ne_nil hv
  simp [gc]

/-- GC leaves no empty bucket behind. -/
theorem gc_noEmptyBucket {C : Type} (reg : Registry C) : noEmptyBucket (gc reg) := by
  intro kv hkv
  have h := List.of_mem_filter hkv
  simpa using h

/-- GC does not touch a registry without empty buckets. -/
theorem gc_eq_self {C : Type} (reg : Registry C) (h : noEmptyBucket reg) :
    gc reg = reg := by
  apply List.filter_eq_self.mpr
  intro kv hkv
  simpa using h kv hkv

/-- A key is found exactly when it occurs among the registry's keys. -/
theorem bucketOf_eq_none_iff {C : Type} (reg : Registry C) (k : Int) :
    bucketOf reg k = none ↔ k ∉ reg.map Prod.fst := by
  induction reg with
  | nil => simp [bucketOf]
  | cons kv rest ih =>
    obtain ⟨k', vec⟩ := kv
    by_cases h : k' = k
    · subst h
      simp [bucketOf]
    · rw [List.map_cons]
      simp only [bucketOf, if_neg h, List.mem_cons]
      rw [ih]
      constructor
      · rintro hk (h1 | h2)
        · exact h h1.symm
        · exact hk h2
      · intro hk h2
        exact hk (Or.inr h2)

/-- GC only removes keys; it never makes a key appear. -/
theorem bucketOf_gc_eq_none {C : Type} (reg : Registry C) (k : Int)
    (h : bucketOf reg k = none) : bucketOf (gc reg) k = none := by
  induction reg with
  | nil => simpa using h
  | cons kv rest ih =>
    obtain ⟨k₀, v₀⟩ := kv
    by_cases h₀ : k₀ = k
    · simp [bucketOf, h₀] at h
    · have hrest : bucketOf rest k = none := by simpa [bucketOf, h₀] using h
      by_cases hv : v₀ = []
      · subst hv
        rw [gc_cons_nil]
        exact ih hrest
      · rw [gc_cons_ne _ _ _ hv]
        simpa [bucketOf, h₀] using ih hrest

/-- Looking up the key just stored. -/
theorem bucketOf_setBucket_self {C : Type} (reg : Registry C) (k : Int)
    (vec : List (subscriber C)) : bucketOf (setBucket reg k vec) k = some vec := by
  induction reg with
  | nil => simp [setBucket, bucketOf]
  | cons kv rest ih =>
    obtain ⟨k', v'⟩ := kv
    by_cases h : k' = k <;> simp [setBucket, bucketOf, h, ih]

/-- Storing under one key leaves the lookup of other keys unchanged. -/
theorem bucketOf_setBucket_other {C : Type} (reg : Registry C) (k k' : Int)
    (vec : List (subscriber C)) (h : k' ≠ k) :
    bucketOf (setBucket reg k vec) k' = bucketOf reg k' := by
  have hkk : ¬ k = k' := fun h' => h h'.symm
  induction reg with
  | nil => simp [setBucket, bucketOf, hkk]
  | cons kv rest ih =>
    obtain ⟨k₀, v₀⟩ := kv
    by_cases h₀ : k₀ = k
    · subst h₀
      simp [setBucket, bucketOf, hkk]
    · simp [setBucket, bucketOf, h₀, ih]

/-- Storing an empty bucket and collecting garbage removes the key (there is
no second entry for it when the keys are distinct). -/
theorem bucketOf_gc_setBucket_nil {C : Type} (reg : Registry C) (k : Int)
    (h : keysNodup reg) :
    bucketOf (gc (setBucket reg k [])) k = none := by
  induction reg with
  | nil =>
    simp [setBucket, gc_cons_nil, gc_nil, bucketOf]
  | cons kv rest ih =>
    obtain ⟨k₀, v₀⟩ := kv
    have hsplit : k₀ ∉ rest.map Prod.fst ∧ keysNodup rest := by
      unfold keysNodup at h
      rw [List.map_cons, List.nodup_cons] at h
      exact h
    by_cases h₀ : k₀ = k
    · subst h₀
      have hnone : bucketOf rest k₀ = none :=
        (bucketOf_eq_none_iff rest k₀).mpr hsplit.1
      simp only [setBucket, if_pos rfl, gc_cons_nil]
      exact bucketOf_gc_eq_none rest k₀ hnone
    · by_cases hv₀ : v₀ = []
      · subst hv₀
        simp only [setBucket, if_neg h₀, gc_cons_nil]
        exact ih hsplit.2
      · simp only [setBucket, if_neg h₀, gc_cons_ne _ _ _ hv₀, bucketOf, if_neg h₀]
        exact ih hsplit.2

/-- Storing a non-empty bucket and collecting garbage: the key now resolves to
the stored bucket. -/
theorem bucketOf_gc_setBucket_ne {C : Type} (reg : Registry C) (k : Int)
    (vec : List (subscriber C)) (hv : vec ≠ []) :
    bucketOf (gc (setBucket reg k vec)) k = some vec := by
  induction reg with
  | nil =>
    simp [setBucket, gc_cons_ne _ _ _ hv, bucketOf]
  | cons kv rest ih =>
    obtain ⟨k₀, v₀⟩ := kv
    by_cases h₀ : k₀ = k
    · subst h₀
      simp [setBucket, gc_cons_ne _ _ _ hv, bucketOf]
    · by_cases hv₀ : v₀ = []
      · subst hv₀
        simp only [setBucket, if_neg h₀, gc_cons_nil]
        exact ih
      · simp only [setBucket, if_neg h₀, gc_cons_ne _ _ _ hv₀, bucketOf, if_neg h₀]
        exact ih

/-- After storing a bucket and collecting garbage, every other key of a
registry without empty buckets resolves as before. -/
theorem bucketOf_gc_setBucket_other {C : Type} (reg : Registry C) (k k' : Int)
    (vec : List (subscriber C)) (hne : noEmptyBucket reg) (h : k' ≠ k) :
    bucketOf (gc (setBucket reg k vec)) k' = bucketOf reg k' := by
  have hkk : ¬ k = k' := fun h' => h h'.symm
  induction reg with
  | nil =>
    by_cases hv : vec = []
    · subst hv
      simp [setBucket, gc_cons_nil, gc_nil, bucketOf]
    · simp [setBucket, gc_cons_ne _ _ _ hv, bucketOf, hkk]
  | cons kv rest ih =>
    obtain ⟨k₀, v₀⟩ := kv
    have hv₀ : v₀ ≠ [] := hne (k₀, v₀) (List.mem_cons_self _ _)
    have hrest : noEmptyBucket rest := fun kv hkv => hne kv (List.mem_cons_of_mem _ hkv)
    by_cases h₀ : k₀ = k
    · subst h₀
      by_cases hv : vec = []
      · subst hv
        simp [setBucket, gc_cons_nil, gc_eq_self rest hrest, bucketOf, hkk]
      · simp [setBucket, gc_cons_ne _ _ _ hv, gc_eq_self rest hrest, bucketOf, hkk]
    · by_cases hk' : k₀ = k'
      · subst hk'
        simp [setBucket, if_neg h₀, gc_cons_ne _ _ _ hv₀, bucketOf]
      · simp only [setBucket, if_neg h₀, gc_cons_ne _ _ _ hv₀, bucketOf, if_neg hk']
        exact ih hrest

/-- The wrapped counter agrees with wrapping the number of calls. -/
theorem counterAfter_eq_wrap64 (n : Nat) : counterAfter n = wrap64 n := by
  induction n with
  | zero =>
    simp [counterAfter, wrap64]
  | succ n ih =>
    show nextCounter (counterAfter n) = wrap64 (n + 1 : Nat)
    rw [ih]
    unfold nextCounter wrap64
    push_cast
    omega

/-- The id handed out by the `n`-th call is the wrapped call count. -/
theorem idOfCall_eq_wrap64 (n : Nat) : idOfCall n = wrap64 n := by
  unfold idOfCall fetchAddResult
  exact counterAfter_eq_wrap64 n

/-- Before the counter wraps, the id of the `k`-th call is `k` itself. -/
theorem idOfCall_small (k : Nat) (hk : k < 2 ^ 63) : idOfCall k = k := by
  rw [idOfCall_eq_wrap64]
  unfold wrap64
  omega

/-! ## Claims -/

/-- C1 (code bug evaluated): in a registry whose bucket for the event type
holds exactly one subscriber, with id 0, `unsubscribe(type, 1)` hits a present,
non-empty bucket with no subscriber of id 1, and the source (eventus.h line
881) returns `NO_SUBSCRIBERS_FOR_EVENT_TYPE` instead of the claimed
`NO_SUBSCRIBER_WITH_ID`.  The other two branches return the claimed statuses:
`EVENT_TYPE_NOT_REGISTERED` for an absent bucket and `OK` for a present id. -/
theorem unsubscribe_missing_id_wrong_status :
    (unsubscribeTyped [((0 : Int), [(⟨0, 0, ()⟩ : subscriber Unit)])] 0 1).1
        = NO_SUBSCRIBERS_FOR_EVENT_TYPE ∧
    (unsubscribeTyped [((0 : Int), [(⟨0, 0, ()⟩ : subscriber Unit)])] 0 1).1
        ≠ NO_SUBSCRIBER_WITH_ID ∧
    [(⟨0, 0, ()⟩ : subscriber Unit)] ≠ [] ∧
    (unsubscribeTyped ([] : Registry Unit) 0 1).1 = EVENT_TYPE_NOT_REGISTERED ∧
    (unsubscribeTyped [((0 : Int), [(⟨0, 0, ()⟩ : subscriber Unit)])] 0 0).1 = OK := by
  decide

/-- C2 counterexample: `std::sort` is not stable, so the sorted bucket need not
keep equal priorities in insertion order.  Subscribing id 0 and then id 1, both
with priority 5, may leave the bucket `[id 1, id 0]`: both steps satisfy the
embedded subscribe step (permutation sorted by non-increasing priority, the
whole guarantee of the `std::sort` call), yet the equal-priority subscribers
end up in the reverse of their subscribe order. -/
theorem subscribe_tie_order_not_preserved :
    SubscribeStep ([] : List (subscriber Unit)) ⟨0, 5, ()⟩ [⟨0, 5, ()⟩] ∧
    SubscribeStep [(⟨0, 5, ()⟩ : subscriber Unit)] ⟨1, 5, ()⟩ [⟨1, 5, ()⟩, ⟨0, 5, ()⟩] ∧
    (⟨0, 5, ()⟩ : subscriber Unit).priority = (⟨1, 5, ()⟩ : subscriber Unit).priority ∧
    ([⟨1, 5, ()⟩, ⟨0, 5, ()⟩] : List (subscriber Unit)) ≠ [⟨0, 5, ()⟩, ⟨1, 5, ()⟩] := by
  decide

/-- C2 amended: after every subscribe the type's bucket is a permutation of all
subscribers subscribed so far, sorted by non-increasing priority, and a
subsequent publish invokes subscribers in non-increasing priority order; the
relative order of equal-priority subscribers is unspecified (`std::sort` gives
no stability guarantee). -/
theorem bucket_sorted_after_subscribes {E : Type}
    (subs bucket : List (subscriber (E → Bool × E)))
    (h : ReachBucket subs bucket) :
    bucket.Perm subs ∧ sortedDesc bucket ∧
    ∀ e : E, sortedDesc (runSubs bucket e).1 := by
  have main : bucket.Perm subs ∧ sortedDesc bucket := by
    induction h with
    | nil => exact ⟨List.Perm.refl [], List.Pairwise.nil⟩
    | step hreach hstep ih =>
      rename_i subs' bucket₀ bucket₁ s
      exact ⟨hstep.1.trans (ih.1.append_right [s]), hstep.2⟩
  refine ⟨main.1, main.2, fun e => ?_⟩
  obtain ⟨n, hn⟩ := runSubs_eq_take bucket e
  rw [hn]
  exact main.2.sublist (List.take_sublist n bucket)

/-- C2 amended witness: one subscribe step on the empty bucket. -/
theorem bucket_sorted_after_subscribes_witness :
    ([(⟨0, 5, fun (e : Int) => (true, e)⟩ : subscriber (Int → Bool × Int))].Perm
      [⟨0, 5, fun (e : Int) => (true, e)⟩]) ∧
    sortedDesc [(⟨0, 5, fun (e : Int) => (true, e)⟩ : subscriber (Int → Bool × Int))] ∧
    sortedDesc (runSubs [(⟨0, 5, fun (e : Int) => (true, e)⟩ :
      subscriber (Int → Bool × Int))] 0).1 :=
  have h : ReachBucket [(⟨0, 5, fun (e : Int) => (true, e)⟩ :
      subscriber (Int → Bool × Int))] [⟨0, 5, fun (e : Int) => (true, e)⟩] :=
    ReachBucket.step ReachBucket.nil ⟨List.Perm.refl _, by simp [sortedDesc]⟩
  ⟨(bucket_sorted_after_subscribes _ _ h).1,
   (bucket_sorted_after_subscribes _ _ h).2.1,
   (bucket_sorted_after_subscribes _ _ h).2.2 0⟩

/-- C3: when a subscriber's callback returns false during `publish` on a
bucket sorted by non-increasing priority (the bucket invariant), the invoked
subscribers are exactly those before the stopper plus the stopper itself —
earlier invocations all happened — and no subscriber of strictly lower
priority than the stopper is invoked in that call. -/
theorem publish_false_short_circuits {E : Type} (reg : Registry (E → Bool × E))
    (k : Int) (e : E) (vec : List (subscriber (E → Bool × E)))
    (hb : bucketOf reg k = some vec)
    (hsorted : sortedDesc vec)
    (hids : (vec.map subscriber.id).Nodup)
    (hstop : (runSubs vec e).2.2 = true) :
    ∃ pre stopper rest, vec = pre ++ stopper :: rest ∧
      (publishRun reg k e).2.1 = (pre ++ [stopper]).map subscriber.id ∧
      ∀ s' ∈ vec, s'.priority < stopper.priority →
        s'.id ∉ (publishRun reg k e).2.1 := by
  have hvecne : vec ≠ [] := by
    intro hnil
    subst hnil
    simp [runSubs] at hstop
  obtain ⟨pre, stopper, rest, h1, h2⟩ := runSubs_stopped vec e hstop
  have hinv : (publishRun reg k e).2.1 = (runSubs vec e).1.map subscriber.id := by
    cases vec with
    | nil => exact absurd rfl hvecne
    | cons v vs => simp [publishRun, hb]
  refine ⟨pre, stopper, rest, h1, by rw [hinv, h2], ?_⟩
  intro s' hs' hlt hmem
  rw [hinv, h2, List.mem_map] at hmem
  obtain ⟨x, hx, hxid⟩ := hmem
  have hxvec : x ∈ vec := by
    rw [h1]
    rcases List.mem_append.mp hx with hxp | hxs
    · exact List.mem_append.mpr (Or.inl hxp)
    · rw [List.mem_singleton] at hxs
      subst hxs
      exact List.mem_append.mpr (Or.inr (List.mem_cons_self _ _))
  have hxeq : x = s' := List.inj_on_of_nodup_map hids hxvec hs' hxid
  subst hxeq
  rcases List.mem_append.mp hx with hxp | hxs
  · have hps : stopper.priority ≤ x.priority := by
      rw [h1] at hsorted
      exact (List.pairwise_append.mp hsorted).2.2 x hxp stopper (List.mem_cons_self _ _)
    omega
  · rw [List.mem_singleton] at hxs
    subst hxs
    exact absurd hlt (lt_irrefl _)

/-- C3 witness: three subscribers at priorities 10 > 5 > 1 where the middle
one returns false: the first two are invoked, the priority-1 subscriber is
not. -/
theorem publish_false_short_circuits_witness :
    ∃ pre stopper rest,
      [(⟨0, 10, fun (e : Int) => (true, e)⟩ : subscriber (Int → Bool × Int)),
       ⟨1, 5, fun e => (false, e)⟩, ⟨2, 1, fun e => (true, e)⟩]
        = pre ++ stopper :: rest ∧
      (publishRun [((0 : Int),
          [(⟨0, 10, fun (e : Int) => (true, e)⟩ : subscriber (Int → Bool × Int)),
           ⟨1, 5, fun e => (false, e)⟩, ⟨2, 1, fun e => (true, e)⟩])] 0 0).2.1
        = (pre ++ [stopper]).map subscriber.id ∧
      ∀ s' ∈ [(⟨0, 10, fun (e : Int) => (true, e)⟩ : subscriber (Int → Bool × Int)),
           ⟨1, 5, fun e => (false, e)⟩, ⟨2, 1, fun e => (true, e)⟩],
        s'.priority < stopper.priority →
          s'.id ∉ (publishRun [((0 : Int),
            [(⟨0, 10, fun (e : Int) => (true, e)⟩ : subscriber (Int → Bool × Int)),
             ⟨1, 5, fun e => (false, e)⟩, ⟨2, 1, fun e => (true, e)⟩])] 0 0).2.1 :=
  publish_false_short_circuits _ 0 0 _ rfl
    (by simp [sortedDesc])
    (by simp)
    rfl

/-- C4: `publish` returns `EVENT_TYPE_NOT_REGISTERED` when the registry has no
bucket for the type, `NO_SUBSCRIBERS_FOR_EVENT_TYPE` when the bucket is empty,
and `OK` exactly when at least one subscriber was invoked (in particular also
when a subscriber returned false and stopped propagation early). -/
theorem publish_status_characterization {E : Type} (reg : Registry (E → Bool × E))
    (k : Int) (e : E) :
    (bucketOf reg k = none → (publishRun reg k e).1 = EVENT_TYPE_NOT_REGISTERED) ∧
    (bucketOf reg k = some [] → (publishRun reg k e).1 = NO_SUBSCRIBERS_FOR_EVENT_TYPE) ∧
    ((publishRun reg k e).1 = OK ↔ (publishRun reg k e).2.1 ≠ []) := by
  refine ⟨fun h => by simp [publishRun, h], fun h => by simp [publishRun, h], ?_⟩
  unfold publishRun
  match hb : bucketOf reg k with
  | none => simp
  | some [] => simp
  | some (s :: rest) =>
    simpa using runSubs_fst_ne_nil s rest e

/-- C4 witness: the three branches at concrete registries. -/
theorem publish_status_characterization_witness :
    (publishRun ([] : Registry (Int → Bool × Int)) 0 0).1 = EVENT_TYPE_NOT_REGISTERED ∧
    (publishRun [((0 : Int), ([] : List (subscriber (Int → Bool × Int))))] 0 0).1
        = NO_SUBSCRIBERS_FOR_EVENT_TYPE ∧
    ((publishRun [((0 : Int), [(⟨7, 0, fun (e : Int) => (false, e)⟩ :
        subscriber (Int → Bool × Int))])] 0 0).1 = OK ↔
      (publishRun [((0 : Int), [(⟨7, 0, fun (e : Int) => (false, e)⟩ :
        subscriber (Int → Bool × Int))])] 0 0).2.1 ≠ []) :=
  ⟨(publish_status_characterization [] 0 0).1 rfl,
   (publish_status_characterization [((0 : Int), [])] 0 0).2.1 rfl,
   (publish_status_characterization
      [((0 : Int), [⟨7, 0, fun (e : Int) => (false, e)⟩])] 0 0).2.2⟩

/-- C5: with GC enabled, no bucket is observably empty after any structural
mutation — after `subscribe` (any permitted sort output), after
`unsubscribe(type, id)`, after any terminating type-erased `unsubscribe(id)`,
and after `unsubscribe_event` — and removing a bucket's only subscriber via
`unsubscribe` succeeds and makes a subsequent `unsubscribe_event` on that type
report `EVENT_TYPE_NOT_REGISTERED`. -/
theorem no_empty_bucket_invariant {C : Type} :
    (∀ (reg : Registry C) (k : Int) (vec' : List (subscriber C)) (s : subscriber C),
      sortSpec ((bucketOf reg k).getD [] ++ [s]) vec' →
      noEmptyBucket (subscribeResult reg k vec')) ∧
    (∀ (reg : Registry C) (k id : Int), noEmptyBucket reg →
      noEmptyBucket (unsubscribeTyped reg k id).2) ∧
    (∀ (reg : Registry C) (id : Int) (res : e_status × Registry C),
      noEmptyBucket reg → unsubscribeErased reg id = some res →
      noEmptyBucket res.2) ∧
    (∀ (reg : Registry C) (k : Int), noEmptyBucket reg →
      noEmptyBucket (unsubscribeEvent reg k).2) ∧
    (∀ (reg : Registry C) (k : Int) (s : subscriber C),
      keysNodup reg → bucketOf reg k = some [s] →
      (unsubscribeTyped reg k s.id).1 = OK ∧
      (unsubscribeEvent (unsubscribeTyped reg k s.id).2 k).1
        = EVENT_TYPE_NOT_REGISTERED) := by
  refine ⟨?_, ?_, ?_, ?_, ?_⟩
  · intro reg k vec' s _
    exact gc_noEmptyBucket _
  · intro reg k id hne
    unfold unsubscribeTyped
    cases hb : bucketOf reg k with
    | none => exact hne
    | some vec =>
      by_cases ha : vec.any (fun s => s.id == id)
      · simp only [ha, if_true]
        exact gc_noEmptyBucket _
      · simp only [ha, if_false]
        exact hne
  · intro reg id res hne h
    cases reg with
    | nil =>
      simp only [unsubscribeErased, Option.some.injEq] at h
      subst h
      intro kv hkv
      simp at hkv
    | cons kv rest =>
      obtain ⟨k, vec⟩ := kv
      simp only [unsubscribeErased] at h
      split at h
      · exact absurd h (by simp)
      · rw [Option.some.injEq] at h
        subst h
        exact gc_noEmptyBucket _
  · intro reg k hne
    unfold unsubscribeEvent
    cases hb : bucketOf reg k with
    | none => exact hne
    | some vec => exact gc_noEmptyBucket _
  · intro reg k s hkeys hb
    have hany : ([s].any (fun x => x.id == s.id)) = true := by simp
    have he : eraseFirstP (fun x => x.id == s.id) [s] = [] := by
      simp [eraseFirstP]
    constructor
    · simp [unsubscribeTyped, hb, hany]
    · have h2 : (unsubscribeTyped reg k s.id).2 = gc (setBucket reg k []) := by
        simp [unsubscribeTyped, hb, hany, he]
      rw [h2]
      simp [unsubscribeEvent, bucketOf_gc_setBucket_nil reg k hkeys]

/-- C5 witness: the five conjuncts at concrete registries over `Unit`
callbacks. -/
theorem no_empty_bucket_invariant_witness :
    noEmptyBucket (subscribeResult ([] : Registry Unit) 0 [⟨0, 5, ()⟩]) ∧
    noEmptyBucket (unsubscribeTyped [((0 : Int), [(⟨0, 5, ()⟩ : subscriber Unit)])] 0 7).2 ∧
    noEmptyBucket ((NO_SUBSCRIBER_WITH_ID, ([] : Registry Unit)) : e_status × Registry Unit).2 ∧
    noEmptyBucket (unsubscribeEvent [((0 : Int), [(⟨0, 5, ()⟩ : subscriber Unit)])] 0).2 ∧
    ((unsubscribeTyped [((0 : Int), [(⟨0, 5, ()⟩ : subscriber Unit)])] 0
        (⟨0, 5, ()⟩ : subscriber Unit).id).1 = OK ∧
      (unsubscribeEvent
        (unsubscribeTyped [((0 : Int), [(⟨0, 5, ()⟩ : subscriber Unit)])] 0
          (⟨0, 5, ()⟩ : subscriber Unit).id).2 0).1 = EVENT_TYPE_NOT_REGISTERED) :=
  ⟨(no_empty_bucket_invariant.1) [] 0 [⟨0, 5, ()⟩] ⟨0, 5, ()⟩ (by decide),
   (no_empty_bucket_invariant.2.1) [((0 : Int), [⟨0, 5, ()⟩])] 0 7 (by decide),
   (no_empty_bucket_invariant.2.2.1) [] 0 (NO_SUBSCRIBER_WITH_ID, []) (by decide) rfl,
   (no_empty_bucket_invariant.2.2.2.1) [((0 : Int), [⟨0, 5, ()⟩])] 0 (by decide),
   (no_empty_bucket_invariant.2.2.2.2) [((0 : Int), [⟨0, 5, ()⟩])] 0 ⟨0, 5, ()⟩
     (by decide) (by decide)⟩

/-- C6: `publish_multi` performs one `publish` per event in the order supplied
(the invocation traces concatenate in that order; `publish` never mutates the
registry) and returns exactly the status of the last `publish`, discarding the
earlier statuses. -/
theorem publish_multi_last_status {E : Type} (reg : Registry (E → Bool × E))
    (es : List (Int × E)) (k : Int) (e : E) :
    publishMulti reg (es ++ [(k, e)]) = (publishRun reg k e).1 ∧
    publishMultiInvoked reg (es ++ [(k, e)])
      = publishMultiInvoked reg es ++ (publishRun reg k e).2.1 := by
  constructor
  · simp [publishMulti, List.foldl_append]
  · simp [publishMultiInvoked]

/-- C7 counterexample: the `int64_t` id counter wraps.  The id returned by
subscribe call number 2^63 (0-based, on a fresh bus) is -2^63, which is smaller
than the id 0 returned by the first call, and call number 2^64 returns id 0
again — so ids do not stay strictly increasing, unique and unreused over an
unbounded bus lifetime, as the claim states. -/
theorem subscribe_id_counter_wraps :
    idOfCall 0 = 0 ∧
    idOfCall (2 ^ 63) = -(2 ^ 63) ∧
    ¬ idOfCall 0 < idOfCall (2 ^ 63) ∧
    idOfCall (2 ^ 64) = idOfCall 0 := by
  simp only [idOfCall_eq_wrap64]
  unfold wrap64
  norm_num

/-- C7 amended: every subscribe call succeeds and, as long as the bus has
allocated fewer than 2^63 ids (before the 64-bit counter wraps), the id
returned by each call is the number of calls before it, so ids are strictly
increasing and never reused. -/
theorem subscribe_ids_strictly_increase (m n : Nat) (hmn : m < n) (hn : n < 2 ^ 63) :
    idOfCall n = n ∧ idOfCall m < idOfCall n := by
  have hm := idOfCall_small m (lt_trans hmn hn)
  have hn' := idOfCall_small n hn
  refine ⟨hn', ?_⟩
  rw [hm, hn']
  exact_mod_cast hmn

/-- C7 amended witness: the second call's id exceeds the first call's id. -/
theorem subscribe_ids_strictly_increase_witness :
    (0 : Nat) < 1 ∧ (1 : Nat) < 2 ^ 63 ∧ idOfCall 1 = 1 ∧ idOfCall 0 < idOfCall 1 :=
  ⟨by norm_num, by norm_num,
   (subscribe_ids_strictly_increase 0 1 (by norm_num) (by norm_num)).1,
   (subscribe_ids_strictly_increase 0 1 (by norm_num) (by norm_num)).2⟩

/-- C8: when `unsubscribe(type, id)` returns `OK`, a subscriber with that id
existed; exactly the subscribers with that id are removed from that bucket
while all others keep their relative order (with distinct ids: exactly that one
subscriber); the bucket is republished under the type, or dropped by GC when it
became empty; every other type's bucket is unchanged (there are no empty
buckets for GC to drop under the invariant); and a following `publish` of that
type never invokes the removed id. -/
theorem unsubscribe_removes_exactly_one {E : Type} (reg : Registry (E → Bool × E))
    (t i : Int) (vec : List (subscriber (E → Bool × E)))
    (hkeys : keysNodup reg) (hne : noEmptyBucket reg)
    (hb : bucketOf reg t = some vec)
    (hids : (vec.map subscriber.id).Nodup)
    (hok : (unsubscribeTyped reg t i).1 = OK) :
    (∃ s ∈ vec, s.id = i) ∧
    eraseFirstP (fun s => s.id == i) vec = vec.filter (fun s => !(s.id == i)) ∧
    (vec.filter (fun s => !(s.id == i)) = [] →
      bucketOf (unsubscribeTyped reg t i).2 t = none) ∧
    (vec.filter (fun s => !(s.id == i)) ≠ [] →
      bucketOf (unsubscribeTyped reg t i).2 t
        = some (vec.filter (fun s => !(s.id == i)))) ∧
    (∀ t', t' ≠ t → bucketOf (unsubscribeTyped reg t i).2 t' = bucketOf reg t') ∧
    (∀ e, i ∉ (publishRun (unsubscribeTyped reg t i).2 t e).2.1) := by
  have hany : vec.any (fun s => s.id == i) = true := by
    by_cases ha : vec.any (fun s => s.id == i) = true
    · exact ha
    · exfalso
      rw [Bool.not_eq_true] at ha
      simp [unsubscribeTyped, hb, ha] at hok
  have hfil := eraseFirstP_eq_filter i vec hids
  have h2 : (unsubscribeTyped reg t i).2
      = gc (setBucket reg t (vec.filter (fun s => !(s.id == i)))) := by
    simp [unsubscribeTyped, hb, hany, hfil]
  refine ⟨?_, hfil, ?_, ?_, ?_, ?_⟩
  · obtain ⟨s, hs, hsi⟩ := List.any_eq_true.mp hany
    exact ⟨s, hs, by simpa using hsi⟩
  · intro hf
    rw [h2, hf]
    exact bucketOf_gc_setBucket_nil reg t hkeys
  · intro hf
    rw [h2]
    exact bucketOf_gc_setBucket_ne reg t _ hf
  · intro t' ht'
    rw [h2]
    exact bucketOf_gc_setBucket_other reg t t' _ hne ht'
  · intro e hmem
    by_cases hf : vec.filter (fun s => !(s.id == i)) = []
    · have hbnone : bucketOf (unsubscribeTyped reg t i).2 t = none := by
        rw [h2, hf]
        exact bucketOf_gc_setBucket_nil reg t hkeys
      simp [publishRun, hbnone] at hmem
    · have hbsome : bucketOf (unsubscribeTyped reg t i).2 t
          = some (vec.filter (fun s => !(s.id == i))) := by
        rw [h2]
        exact bucketOf_gc_setBucket_ne reg t _ hf
      obtain ⟨f, fs, hcons⟩ := List.exists_cons_of_ne_nil hf
      rw [hcons] at hbsome
      simp only [publishRun, hbsome, List.mem_map] at hmem
      obtain ⟨x, hx, hxid⟩ := hmem
      obtain ⟨n, hn⟩ := runSubs_eq_take (f :: fs) e
      rw [hn] at hx
      have hxmem : x ∈ f :: fs := List.take_subset n (f :: fs) hx
      rw [← hcons] at hxmem
      have hxpred := List.of_mem_filter hxmem
      rw [Bool.not_eq_eq_eq_not] at hxpred
      simp at hxpred
      exact hxpred hxid

/-- C8 witness: a registry with two types; unsubscribing id 0 from the
two-subscriber bucket of type 0 keeps subscriber id 1, leaves type 1 alone,
and id 0 is never invoked again. -/
theorem unsubscribe_removes_exactly_one_witness :
    (∃ s ∈ [(⟨0, 5, fun (e : Int) => (true, e)⟩ : subscriber (Int → Bool × Int)),
        ⟨1, 3, fun e => (true, e)⟩], s.id = 0) ∧
    eraseFirstP (fun s => s.id == 0)
        [(⟨0, 5, fun (e : Int) => (true, e)⟩ : subscriber (Int → Bool × Int)),
         ⟨1, 3, fun e => (true, e)⟩]
      = [(⟨0, 5, fun (e : Int) => (true, e)⟩ : subscriber (Int → Bool × Int)),
         ⟨1, 3, fun e => (true, e)⟩].filter (fun s => !(s.id == 0)) ∧
    ([(⟨0, 5, fun (e : Int) => (true, e)⟩ : subscriber (Int → Bool × Int)),
         ⟨1, 3, fun e => (true, e)⟩].filter (fun s => !(s.id == 0)) = [] →
      bucketOf (unsubscribeTyped
        [((0 : Int), [(⟨0, 5, fun (e : Int) => (true, e)⟩ : subscriber (Int → Bool × Int)),
          ⟨1, 3, fun e => (true, e)⟩]),
         ((1 : Int), [⟨2, 0, fun e => (true, e)⟩])] 0 0).2 0 = none) ∧
    ([(⟨0, 5, fun (e : Int) => (true, e)⟩ : subscriber (Int → Bool × Int)),
         ⟨1, 3, fun e => (true, e)⟩].filter (fun s => !(s.id == 0)) ≠ [] →
      bucketOf (unsubscribeTyped
        [((0 : Int), [(⟨0, 5, fun (e : Int) => (true, e)⟩ : subscriber (Int → Bool × Int)),
          ⟨1, 3, fun e => (true, e)⟩]),
         ((1 : Int), [⟨2, 0, fun e => (true, e)⟩])] 0 0).2 0
        = some ([(⟨0, 5, fun (e : Int) => (true, e)⟩ : subscriber (Int → Bool × Int)),
           ⟨1, 3, fun e => (true, e)⟩].filter (fun s => !(s.id == 0)))) ∧
    (∀ t', t' ≠ 0 →
      bucketOf (unsubscribeTyped
        [((0 : Int), [(⟨0, 5, fun (e : Int) => (true, e)⟩ : subscriber (Int → Bool × Int)),
          ⟨1, 3, fun e => (true, e)⟩]),
         ((1 : Int), [⟨2, 0, fun e => (true, e)⟩])] 0 0).2 t'
        = bucketOf
        [((0 : Int), [(⟨0, 5, fun (e : Int) => (true, e)⟩ : subscriber (Int → Bool × Int)),
          ⟨1, 3, fun e => (true, e)⟩]),
         ((1 : Int), [⟨2, 0, fun e => (true, e)⟩])] t') ∧
    (∀ e, (0 : Int) ∉ (publishRun (unsubscribeTyped
        [((0 : Int), [(⟨0, 5, fun (e : Int) => (true, e)⟩ : subscriber (Int → Bool × Int)),
          ⟨1, 3, fun e => (true, e)⟩]),
         ((1 : Int), [⟨2, 0, fun e => (true, e)⟩])] 0 0).2 0 e).2.1) :=
  unsubscribe_removes_exactly_one
    [((0 : Int), [(⟨0, 5, fun (e : Int) => (true, e)⟩ : subscriber (Int → Bool × Int)),
      ⟨1, 3, fun e => (true, e)⟩]),
     ((1 : Int), [⟨2, 0, fun e => (true, e)⟩])] 0 0
    [(⟨0, 5, fun (e : Int) => (true, e)⟩ : subscriber (Int → Bool × Int)),
     ⟨1, 3, fun e => (true, e)⟩]
    (by simp [keysNodup])
    (by simp [noEmptyBucket])
    rfl
    (by simp)
    rfl

/-- C9 (modelled from the spec): across any whole lifetime of an
`OwnedSubscription` — any sequence of early unsubscribes, releases and moves,
ended by destruction — at most one unsubscribe is fired, from any initial
armed state. -/
theorem owned_subscription_fires_at_most_once (armed : Bool) (ops : List ownedOp) :
    ownedFires armed ops ≤ 1 := by
  have h := ownedFires_le ops armed
  cases armed <;> simpa using Nat.le_trans h (by split <;> omega)

/-- C10: `publish_threaded` returns `OK` unconditionally and only enqueues its
deferred publish, for every registry, even one where the synchronous `publish`
and `publish_async` report `EVENT_TYPE_NOT_REGISTERED` (no bucket) or
`NO_SUBSCRIBERS_FOR_EVENT_TYPE` (empty bucket) at the moment of the call. -/
theorem publish_threaded_always_ok {E : Type} (reg : Registry (E → Bool × E))
    (q : List (Int × E)) (k : Int) (e : E) :
    (publishThreaded reg q k e).1 = OK ∧
    (publishThreaded reg q k e).2 = q ++ [(k, e)] ∧
    (bucketOf reg k = none →
      (publishRun reg k e).1 = EVENT_TYPE_NOT_REGISTERED ∧
      (publishAsync reg k e).1 = EVENT_TYPE_NOT_REGISTERED) ∧
    (bucketOf reg k = some [] →
      (publishRun reg k e).1 = NO_SUBSCRIBERS_FOR_EVENT_TYPE ∧
      (publishAsync reg k e).1 = NO_SUBSCRIBERS_FOR_EVENT_TYPE) := by
  refine ⟨rfl, rfl, fun h => ?_, fun h => ?_⟩ <;>
    simp [publishRun, publishAsync, h]

/-- C10 witness: on the empty registry (no bucket) and on a registry with an
empty bucket, `publish_threaded` returns `OK` while the synchronous variants
report the misses. -/
theorem publish_threaded_always_ok_witness :
    (publishThreaded ([] : Registry (Int → Bool × Int)) [] 0 0).1 = OK ∧
    ((publishRun ([] : Registry (Int → Bool × Int)) 0 0).1 = EVENT_TYPE_NOT_REGISTERED ∧
      (publishAsync ([] : Registry (Int → Bool × Int)) 0 0).1 = EVENT_TYPE_NOT_REGISTERED) ∧
    ((publishRun [((0 : Int), ([] : List (subscriber (Int → Bool × Int))))] 0 0).1
        = NO_SUBSCRIBERS_FOR_EVENT_TYPE ∧
      (publishAsync [((0 : Int), ([] : List (subscriber (Int → Bool × Int))))] 0 0).1
        = NO_SUBSCRIBERS_FOR_EVENT_TYPE) :=
  ⟨(publish_threaded_always_ok [] [] 0 0).1,
   (publish_threaded_always_ok ([] : Registry (Int → Bool × Int)) [] 0 0).2.2.1 rfl,
   (publish_threaded_always_ok [((0 : Int), [])] [] 0 0).2.2.2 rfl⟩

end Eventus
